import Mathlib

/-!
Verification of the Gann time-cycle projection and cluster-detection logic of
`streamlit_app.py` (GaTimeCycle).

The computational core of the program is embedded shallowly:

* prices, scaled prices and angles are modelled as exact rationals (every
  Python float is a rational, and the spec describes the arithmetic over the
  reals);
* the trigonometric day-offset computation (`np.sin`, `np.deg2rad`) is
  modelled over the real numbers with `Real.sin`;
* Python's `round` (banker's rounding, ties to even) is modelled by `pyRound`
  on the reals and `rheQ` on the rationals;
* calendar dates (`datetime` + `timedelta(days=...)`) are modelled as integer
  day ordinals; `daysFromCivil` converts a Gregorian calendar date to its
  ordinal so that concrete dates from the spec can be named.

The cluster-detection loops (lines 139-150 of the source) only read the
`Cycle Date` column, so they are embedded as functions over a list of integer
day ordinals.
-/

namespace GaTimeCycle

/-- Banker's rounding (round half to even) on the rationals, as performed by
Python's built-in `round`.  Used for `round(scaled, 6)` in the row builder. -/
def rheQ (q : ℚ) : ℤ :=
  if Int.fract q = 1 / 2 then (if ⌊q⌋ % 2 = 0 then ⌊q⌋ else ⌊q⌋ + 1)
  else round q

/-- `round(x, 6)`: round a rational to six decimal places, ties to even
(the display rounding applied to the scaled price at line 122 of the source). -/
def round6 (q : ℚ) : ℚ := (rheQ (q * 1000000) : ℚ) / 1000000

/-- Banker's rounding (round half to even) on the reals, the model of
`int(round(days))` at line 117 of the source. -/
noncomputable def pyRound (x : ℝ) : ℤ :=
  if Int.fract x = 1 / 2 then (if ⌊x⌋ % 2 = 0 then ⌊x⌋ else ⌊x⌋ + 1)
  else round x

/-- Day ordinal of the proleptic Gregorian calendar date `y-m-d`
(the arithmetic `datetime` performs under `timedelta(days=...)`).  Only
differences of ordinals matter, so the epoch is irrelevant. -/
def daysFromCivil (y m d : ℤ) : ℤ :=
  let y2 := if m ≤ 2 then y - 1 else y
  let m2 := if m ≤ 2 then m + 12 else m
  365 * y2 + Int.fdiv y2 4 - Int.fdiv y2 100 + Int.fdiv y2 400
    + Int.fdiv (153 * (m2 - 3) + 2) 5 + d - 1

/-- A swing point: name, price (`none` models a missing/null price, the only
case the projection loop skips at lines 111-112) and anchor date (ordinal). -/
structure Swing where
  name : String
  price : Option ℚ
  date : ℤ
deriving DecidableEq

/-- One row of the cycle table, as appended at lines 119-127 of the source. -/
structure Row where
  swing : String
  price : ℚ
  scaledPrice : ℚ
  divisor : ℤ
  angle : ℚ
  days : ℤ
  cycleDate : ℤ
deriving DecidableEq

/-- `scale_price` (lines 79-102 of the source): choose a divisor by the
first-match descending threshold ladder and return `(price / d, d)`. -/
def scale_price (price : ℚ) : ℚ × ℤ :=
  let d : ℤ :=
    if price ≥ 100000 then 3000
    else if price ≥ 25000 then 500
    else if price ≥ 10000 then 100
    else if price ≥ 1000 then 10
    else if price ≥ 500 then 2
    else 1
  (price / (d : ℚ), d)

/-- Body of the inner loop (lines 114-127 of the source): build the row for
one swing (with its extracted price) and one angle.  `np.deg2rad ang` is
`ang * π / 180` and `days = scaled * sin rad`; `days_r = int(round(days))`. -/
noncomputable def mkRow (s : Swing) (price : ℚ) (ang : ℚ) : Row :=
  let sd := scale_price price
  let rad : ℝ := (ang : ℝ) * Real.pi / 180
  let days : ℝ := (sd.1 : ℝ) * Real.sin rad
  let days_r : ℤ := pyRound days
  { swing := s.name
    price := price
    scaledPrice := round6 sd.1
    divisor := sd.2
    angle := ang
    days := days_r
    cycleDate := s.date + days_r }

/-- The projection loop (lines 107-127 of the source): for each swing, skip it
when the price is missing, otherwise emit one row per selected angle;
emission order is swing-major, angle-minor. -/
noncomputable def mkRows (swings : List Swing) (angles : List ℚ) : List Row :=
  swings.flatMap (fun s =>
    match s.price with
    | none => []
    | some price => angles.map (fun ang => mkRow s price ang))

/-- Follows the spec's words (section 4.2): for a swing with a usable price
and an angle, the Projection row has `scaled, divisor = scale(price)` (the
stored scaled price rounded to six decimal places per the data model of
section 3), `radians = angle * π / 180`, `raw_days = scaled * sin(radians)`,
`day_offset = round(raw_days)` and `cycle_date = anchor_date + day_offset`. -/
noncomputable def specProjectionRow (s : Swing) (a : ℚ) : Row :=
  let price := s.price.getD 0
  let scaled := (scale_price price).1
  let divisor := (scale_price price).2
  let radians : ℝ := (a : ℝ) * Real.pi / 180
  let rawDays : ℝ := (scaled : ℝ) * Real.sin radians
  let dayOffset : ℤ := pyRound rawDays
  { swing := s.name
    price := price
    scaledPrice := round6 scaled
    divisor := divisor
    angle := a
    days := dayOffset
    cycleDate := s.date + dayOffset }

/-- Follows the spec's words (section 4.1): the divisor ladder, first match
wins. -/
def specLadderDivisor (p : ℚ) : ℤ :=
  if p ≥ 100000 then 3000
  else if p ≥ 25000 then 500
  else if p ≥ 10000 then 100
  else if p ≥ 1000 then 10
  else if p ≥ 500 then 2
  else 1

/-- The cluster-flag loop (lines 139-147 of the source): for each row `i`,
count with an accumulator how many rows `j` have `|d_i - d_j| <= w`,
and flag the row when the count reaches 2. -/
def clusterFlags (dates : List ℤ) (w : ℤ) : List Bool :=
  dates.map (fun di =>
    decide (2 ≤ dates.foldl (fun c dj => if |di - dj| ≤ w then c + 1 else c) (0 : ℕ)))

/-- The cluster-count comprehension (line 150 of the source): for each row
`i`, the number of rows `k` with `|d_i - d_k| <= w`. -/
def clusterCounts (dates : List ℤ) (w : ℤ) : List ℕ :=
  dates.map (fun di => dates.countP (fun dj => decide (|di - dj| ≤ w)))

/-- The three default swings of the input form (lines 24-36 of the source). -/
def demoSwings : List Swing :=
  [⟨"Swing 1", some 210, daysFromCivil 2025 4 7⟩,
   ⟨"Swing 2", some 235, daysFromCivil 2025 5 9⟩,
   ⟨"Swing 3", some 198, daysFromCivil 2025 6 15⟩]

/-- The first default swing: price 210, anchored at 2025-04-07. -/
def swing210 : Swing := ⟨"Swing 1", some 210, daysFromCivil 2025 4 7⟩

/-- A swing whose price is exactly zero. -/
def zeroSwing : Swing := ⟨"Swing 1", some 0, daysFromCivil 2025 4 7⟩

/-! ### Helper lemmas -/

/-- Banker's rounding of an integer is the integer itself. -/
theorem pyRound_intCast (n : ℤ) : pyRound ((n : ℝ)) = n := by
  norm_num [pyRound, Int.fract_intCast, round_intCast]

/-- Banker's rounding of zero is zero. -/
theorem pyRound_zero : pyRound 0 = 0 := by
  norm_num [pyRound, Int.fract_zero]

/-- Rational banker's rounding of an integer is the integer itself. -/
theorem rheQ_intCast (n : ℤ) : rheQ ((n : ℚ)) = n := by
  norm_num [rheQ, Int.fract_intCast, round_intCast]

/-- Rounding an integer to six decimal places leaves it unchanged. -/
theorem round6_intCast (n : ℤ) : round6 ((n : ℚ)) = n := by
  have h : ((n : ℚ) * 1000000) = ((n * 1000000 : ℤ) : ℚ) := by push_cast; ring
  rw [round6, h, rheQ_intCast]
  push_cast
  field_simp

/-- The counting `foldl` of the flag loop computes `countP`. -/
theorem foldl_count_eq (w di : ℤ) (l : List ℤ) (c : ℕ) :
    l.foldl (fun acc dj => if |di - dj| ≤ w then acc + 1 else acc) c
      = c + l.countP (fun dj => decide (|di - dj| ≤ w)) := by
  induction l generalizing c with
  | nil => simp
  | cons d t ih =>
    by_cases h : |di - d| ≤ w <;> simp [h, ih, List.countP_cons] <;> omega

/-- Reading every position of a list through `getD` reproduces the list. -/
theorem map_getD_range (l : List ℤ) :
    (List.range l.length).map (fun j => l.getD j 0) = l := by
  apply List.ext_getElem
  · simp
  · intro i h1 h2
    simp [List.getElem?_eq_getElem h2]

/-- A row built by the loop body for a swing whose price is present agrees
with the Projection described by the spec. -/
theorem mkRow_eq_spec (s : Swing) (p a : ℚ) (hp : s.price = some p) :
    mkRow s p a = specProjectionRow s a := by
  simp [mkRow, specProjectionRow, hp]

/-! ### Claim theorems -/

/-- Claim C1: for every price `p`, `scale_price` selects its divisor by the
first-match descending threshold ladder of the spec (100000 → 3000,
25000 → 500, 10000 → 100, 1000 → 10, 500 → 2, otherwise 1, including zero
and negative prices) and returns `p / divisor`; the divisor is positive, so
the function is total. -/
theorem scale_price_ladder (p : ℚ) :
    scale_price p = (p / ((specLadderDivisor p : ℤ) : ℚ), specLadderDivisor p)
      ∧ 0 < specLadderDivisor p := by
  refine ⟨rfl, ?_⟩
  unfold specLadderDivisor
  split_ifs <;> norm_num

/-- Claim C7: for every price `p`, the scaled price times the divisor gives
back `p` exactly, and the divisor is one of 1, 2, 10, 100, 500, 3000. -/
theorem scale_price_inverts (p : ℚ) :
    (scale_price p).1 * (((scale_price p).2 : ℤ) : ℚ) = p
      ∧ (scale_price p).2 ∈ ([1, 2, 10, 100, 500, 3000] : List ℤ) := by
  unfold scale_price
  split_ifs <;> simp

/-- Claim C3: for every list of cycle dates, window and index `i`, the
cluster count of row `i` is the number of indices `j` (including `i` itself)
whose date lies within the window of row `i`'s date — a pairwise per-row
count, so chains of rows are never merged into connected components. -/
theorem cluster_count_pairwise (dates : List ℤ) (w : ℤ) (i : ℕ)
    (h : i < dates.length) :
    (clusterCounts dates w).getD i 0
      = (List.range dates.length).countP
          (fun j => decide (|dates.getD i 0 - dates.getD j 0| ≤ w)) := by
  have h2 : i < (clusterCounts dates w).length := by simpa [clusterCounts] using h
  have hr : (List.range dates.length).countP
        (fun j => decide (|dates.getD i 0 - dates.getD j 0| ≤ w))
      = ((List.range dates.length).map (fun j => dates.getD j 0)).countP
          (fun dj => decide (|dates.getD i 0 - dj| ≤ w)) := by
    rw [List.countP_map]; rfl
  rw [List.getD_eq_getElem _ _ h2, hr, map_getD_range]
  simp [clusterCounts, List.getD_eq_getElem _ _ h, List.getElem?_eq_getElem h]

/-- Witness for C3 at dates 0, 2, 4 with window 2 and row 0: rows 0 and 2 are
each within the window of row 1 but not of each other, and row 0 counts
only itself and row 1. -/
theorem cluster_count_pairwise_concrete :
    (clusterCounts [0, 2, 4] 2).getD 0 0
      = (List.range ([0, 2, 4] : List ℤ).length).countP
          (fun j => decide (|([0, 2, 4] : List ℤ).getD 0 0
            - ([0, 2, 4] : List ℤ).getD j 0| ≤ 2)) :=
  cluster_count_pairwise [0, 2, 4] 2 0 (by decide)

/-- Claim C6: for every list of cycle dates, window and index `i`, the flag
computed by the cluster-flag loop is `true` exactly when the count computed
by the separate cluster-count loop is at least 2: the two loops always
agree. -/
theorem cluster_flag_iff_count (dates : List ℤ) (w : ℤ) (i : ℕ)
    (h : i < dates.length) :
    ((clusterFlags dates w).getD i false = true
      ↔ 2 ≤ (clusterCounts dates w).getD i 0) := by
  have h1 : i < (clusterFlags dates w).length := by simpa [clusterFlags] using h
  have h2 : i < (clusterCounts dates w).length := by simpa [clusterCounts] using h
  rw [List.getD_eq_getElem _ _ h1, List.getD_eq_getElem _ _ h2]
  simp [clusterFlags, clusterCounts, foldl_count_eq]

/-- Witness for C6 at dates 0, 10, 20 with window 3 and row 0. -/
theorem cluster_flag_iff_count_concrete :
    ((clusterFlags [0, 10, 20] 3).getD 0 false = true
      ↔ 2 ≤ (clusterCounts [0, 10, 20] 3).getD 0 0) :=
  cluster_flag_iff_count [0, 10, 20] 3 0 (by decide)

/-- Claim C2: the rows emitted by the projection loop are exactly one
Projection per (swing with a present price, selected angle), in swing-major,
angle-minor order, each with scaled price and divisor from `scale_price`
(the stored scaled price rounded to six decimals per the spec's data model),
`radians = angle * π / 180`, `raw_days = scaled * sin radians`,
`day_offset` the rounding of `raw_days` and
`cycle_date = anchor_date + day_offset`; a zero or negative price is still
processed, and only a missing price (`none`) skips the swing. -/
theorem projection_rows_spec (swings : List Swing) (angles : List ℚ) :
    mkRows swings angles
      = (swings.filter (fun s => s.price.isSome)).flatMap
          (fun s => angles.map (fun a => specProjectionRow s a)) := by
  induction swings with
  | nil => rfl
  | cons s t ih =>
    cases hp : s.price with
    | none =>
      simp [mkRows, List.flatMap_cons, List.filter_cons, hp] at ih ⊢
      exact ih
    | some p =>
      have hmap : angles.map (fun a => mkRow s p a)
          = angles.map (fun a => specProjectionRow s a) := by
        have hfun : (fun a => mkRow s p a) = (fun a => specProjectionRow s a) :=
          funext (fun a => mkRow_eq_spec s p a hp)
        rw [hfun]
      simp [mkRows, List.flatMap_cons, List.filter_cons, hp] at ih ⊢
      exact congrArg₂ (fun x y => x ++ y) hmap ih

/-- Claim C5: for every swing list and non-empty angle list, the number of
rows produced equals the number of swings whose price is present times the
number of angles. -/
theorem rows_length_eq (swings : List Swing) (angles : List ℚ)
    (h : angles ≠ []) :
    (mkRows swings angles).length
      = (swings.filter (fun s => s.price.isSome)).length * angles.length := by
  induction swings with
  | nil => simp [mkRows]
  | cons s t ih =>
    cases hp : s.price with
    | none => simpa [mkRows, List.flatMap_cons, List.filter_cons, hp] using ih
    | some p =>
      simp [mkRows, List.flatMap_cons, List.filter_cons, hp] at ih ⊢
      rw [ih]
      ring

/-- Witness for C5: the three default swings and the single angle 45. -/
theorem rows_length_eq_concrete :
    (mkRows demoSwings [(45 : ℚ)]).length
      = (demoSwings.filter (fun s => s.price.isSome)).length
          * [(45 : ℚ)].length :=
  rows_length_eq demoSwings [(45 : ℚ)] (by decide)

/-- Claim C8: for every swing with a present price and an angle of 0 or 180
degrees, the emitted row has day offset 0 and its cycle date is the swing's
anchor date. -/
theorem angle0_or_180_collapses (s : Swing) (p a : ℚ) (hp : s.price = some p)
    (ha : a = 0 ∨ a = 180) :
    (mkRow s p a).days = 0 ∧ (mkRow s p a).cycleDate = s.date := by
  have hsin : Real.sin ((a : ℝ) * Real.pi / 180) = 0 := by
    rcases ha with rfl | rfl
    · norm_num
    · have h180 : (((180 : ℚ) : ℝ)) * Real.pi / 180 = Real.pi := by
        push_cast; ring
      rw [h180, Real.sin_pi]
  constructor
  · show pyRound (((scale_price p).1 : ℝ) * Real.sin ((a : ℝ) * Real.pi / 180)) = 0
    rw [hsin, mul_zero, pyRound_zero]
  · show s.date + pyRound (((scale_price p).1 : ℝ)
        * Real.sin ((a : ℝ) * Real.pi / 180)) = s.date
    rw [hsin, mul_zero, pyRound_zero, add_zero]

/-- Witness for C8: the default first swing at angle 0. -/
theorem angle0_or_180_collapses_concrete :
    (mkRow swing210 210 0).days = 0 ∧ (mkRow swing210 210 0).cycleDate = swing210.date :=
  angle0_or_180_collapses swing210 210 0 rfl (Or.inl rfl)

/-- Counterexample to claim C9: at swing price 210 (anchor 2025-04-07) and
angle 90, the row does not have scaled price 105, day offset 105 and cycle
date 2025-07-21 — the price 210 is below the 500 threshold, so the divisor
is 1, not 2. -/
theorem swing210_angle90_claim_false :
    ¬ ((mkRow swing210 210 90).scaledPrice = 105
        ∧ (mkRow swing210 210 90).days = 105
        ∧ (mkRow swing210 210 90).cycleDate = daysFromCivil 2025 7 21) := by
  intro h
  have h1 : (mkRow swing210 210 90).scaledPrice = 210 := by
    show round6 (scale_price 210).1 = 210
    have hs : (scale_price 210).1 = ((210 : ℤ) : ℚ) := by
      norm_num [scale_price]
    rw [hs, round6_intCast]
    norm_num
  rw [h1] at h
  exact absurd h.1 (by norm_num)

/-- Claim C9 as amended: at swing price 210 (anchor 2025-04-07) and angle
90, the divisor is 1, the scaled price is 210, the day offset is
round(210 * sin 90°) = 210, and the cycle date is 2025-11-03. -/
theorem swing210_angle90_amended :
    (mkRow swing210 210 90).scaledPrice = 210
      ∧ (mkRow swing210 210 90).divisor = 1
      ∧ (mkRow swing210 210 90).days = 210
      ∧ (mkRow swing210 210 90).cycleDate = daysFromCivil 2025 11 3 := by
  have harg : ((scale_price 210).1 : ℝ)
      * Real.sin (((90 : ℚ) : ℝ) * Real.pi / 180) = ((210 : ℤ) : ℝ) := by
    have hrad : (((90 : ℚ) : ℝ)) * Real.pi / 180 = Real.pi / 2 := by
      push_cast; ring
    rw [hrad, Real.sin_pi_div_two, mul_one]
    norm_num [scale_price]
  have hdays : (mkRow swing210 210 90).days = 210 := by
    show pyRound (((scale_price 210).1 : ℝ)
      * Real.sin (((90 : ℚ) : ℝ) * Real.pi / 180)) = 210
    rw [harg, pyRound_intCast]
  refine ⟨?_, ?_, hdays, ?_⟩
  · show round6 (scale_price 210).1 = 210
    have hs : (scale_price 210).1 = ((210 : ℤ) : ℚ) := by
      norm_num [scale_price]
    rw [hs, round6_intCast]
    norm_num
  · show (scale_price 210).2 = 1
    norm_num [scale_price]
  · show swing210.date + pyRound (((scale_price 210).1 : ℝ)
      * Real.sin (((90 : ℚ) : ℝ) * Real.pi / 180)) = daysFromCivil 2025 11 3
    rw [harg, pyRound_intCast]
    show daysFromCivil 2025 4 7 + 210 = daysFromCivil 2025 11 3
    decide

/-- Claim C10: a swing whose price is exactly 0 is not skipped:
`scale_price 0 = (0, 1)`, its row for any selected angle is among the
emitted rows, and that row has day offset 0 and cycle date equal to the
swing's anchor date. -/
theorem zero_price_processed (swings : List Swing) (angles : List ℚ)
    (s : Swing) (a : ℚ) (hs : s ∈ swings) (hp : s.price = some 0)
    (ha : a ∈ angles) :
    scale_price 0 = (0, 1)
      ∧ mkRow s 0 a ∈ mkRows swings angles
      ∧ (mkRow s 0 a).days = 0
      ∧ (mkRow s 0 a).cycleDate = s.date := by
  have hsp : (scale_price 0).1 = 0 := by norm_num [scale_price]
  have hzero : ((scale_price 0).1 : ℝ)
      * Real.sin (((a : ℚ) : ℝ) * Real.pi / 180) = 0 := by
    rw [hsp]
    norm_num
  refine ⟨by norm_num [scale_price], ?_, ?_, ?_⟩
  · refine List.mem_flatMap.mpr ⟨s, hs, ?_⟩
    rw [hp]
    exact List.mem_map_of_mem _ ha
  · show pyRound (((scale_price 0).1 : ℝ)
      * Real.sin (((a : ℚ) : ℝ) * Real.pi / 180)) = 0
    rw [hzero, pyRound_zero]
  · show s.date + pyRound (((scale_price 0).1 : ℝ)
      * Real.sin (((a : ℚ) : ℝ) * Real.pi / 180)) = s.date
    rw [hzero, pyRound_zero, add_zero]

/-- Witness for C10: a zero-price swing at angle 45. -/
theorem zero_price_processed_concrete :
    scale_price 0 = (0, 1)
      ∧ mkRow zeroSwing 0 45 ∈ mkRows [zeroSwing] [(45 : ℚ)]
      ∧ (mkRow zeroSwing 0 45).days = 0
      ∧ (mkRow zeroSwing 0 45).cycleDate = zeroSwing.date :=
  zero_price_processed [zeroSwing] [(45 : ℚ)] zeroSwing 45 (by simp) rfl (by simp)

end GaTimeCycle
